import Mathlib

/-
Verification of the "PLR v23.0 Internal Flip" candidate-scoring predictor and
its supporting loaders, as implemented in the repository's scripts:

  * Tests/PLR_Mod_Scaling_Test.py        (universal engine, namespace ModScaling)
  * alternate/test/PLR_RSA_Breaker.py    (hardcoded mod-6 engine, namespace RsaBreaker)
  * alternate/test/PLR_Efficiency_Memory_Optimized.py (inf-sentinel engine, namespace EffOpt)
  * alternate/test/PLR_Next_Prime_Generator.py (v16/v23 variant, namespace NextPrimeGen)

Python floats are modelled as `WithTop ℚ`: every constant in the scripts is a
short decimal fraction, represented exactly; `⊤` models `float('inf')` /
`math.inf`. Python ints are modelled as `Int`.
-/

-- Batteries marks rational arithmetic irreducible; re-enable kernel evaluation
-- so concrete engine runs can be settled by `decide`.
attribute [local semireducible] Rat.mul Rat.add Rat.sub

namespace PLR

/-- Python float values appearing in the scripts: a finite value (an exact
decimal, modelled as a rational) or the `float('inf')` sentinel `⊤`. -/
abbrev PyFloat := WithTop ℚ

/-- Models the Python dictionary lookup `m.get(k, dflt)` on an association
list of residue/score pairs (dictionary keys are unique in the scripts, so
first-match lookup agrees with dict semantics). -/
def mapGet (m : List (Int × PyFloat)) (k : Int) (dflt : PyFloat) : PyFloat :=
  match m with
  | [] => dflt
  | (k', v) :: rest => if k = k' then v else mapGet rest k dflt

/-- Residues actually present in an association-list table. -/
def tableKeys (m : List (Int × PyFloat)) : List Int := m.map Prod.fst

/-- One step of scanning for the first element with the minimal key.  This is
how the scripts use `list.sort(key=...)` followed by taking element `[0]`:
Python's sort is stable, so the head of the sorted list is exactly the first
element attaining the minimal key. -/
def minStep {α κ : Type} [LinearOrder κ] (key : α → κ) (acc : Option α) (y : α) : Option α :=
  match acc with
  | none => some y
  | some b => if key y < key b then some y else some b

/-- Models the Python idiom `xs.sort(key=f); xs[0]` (equivalently
`min(xs, key=f)` with ties broken by first encounter): the first element of
the list attaining the minimal key, or `none` for an empty list. -/
def firstMinBy {α κ : Type} [LinearOrder κ] (key : α → κ) (l : List α) : Option α :=
  l.foldl (minStep key) none

/-! Embedding of `Tests/PLR_Mod_Scaling_Test.py`: the universal PLR v23.0
engine, parameterised by the messiness map and modulus. -/

namespace ModScaling

/-- Standard threshold, `MESSY_THRESHOLD = 20.0`. -/
def MESSY_THRESHOLD : PyFloat := ((20 : ℚ) : PyFloat)

/-- Returns the PAS failure rate from the provided map; models
`messiness_map.get(residue, 100.0)` with `residue = anchor % modulus`. -/
def get_messiness_score (anchor : Int) (messiness_map : List (Int × PyFloat))
    (modulus : Int) : PyFloat :=
  mapGet messiness_map (anchor % modulus) ((100 : ℚ) : PyFloat)

/-- Per-candidate record built by the engine's first loop:
`{'prime': q, 'gap': gap, 'score': score_v11, 'messiness': messiness}`. -/
structure CandData where
  prime : Int
  gap : Int
  score : PyFloat
  messiness : PyFloat
deriving DecidableEq

/-- Models the arithmetic force `score_v11 = (messiness + 1.0) * gap` on
Python floats.  Every call site passes `gap = q - p_n` with `q` a candidate
successor of `p_n` (so `gap > 0`), where `inf` messiness propagates to an
`inf` score, matching IEEE arithmetic. -/
def scoreV11 (messiness : PyFloat) (gap : Int) : PyFloat :=
  messiness.map fun m => (m + 1) * (gap : ℚ)

/-- The list `candidates_data` built by the loop in `get_v23_prediction`. -/
def candidates_data (p_n : Int) (candidates : List Int)
    (messiness_map : List (Int × PyFloat)) (modulus : Int) : List CandData :=
  candidates.map fun q =>
    let gap := q - p_n
    let anchor := p_n + q
    let messiness := get_messiness_score anchor messiness_map modulus
    { prime := q, gap := gap, score := scoreV11 messiness gap, messiness := messiness }

/-- The `messy_bin`: candidates whose messiness exceeds `MESSY_THRESHOLD`. -/
def messy_bin (p_n : Int) (candidates : List Int)
    (messiness_map : List (Int × PyFloat)) (modulus : Int) : List CandData :=
  (candidates_data p_n candidates messiness_map modulus).filter fun d =>
    decide (MESSY_THRESHOLD < d.messiness)

/-- The arithmetic (baseline) winner: `candidates_data.sort(key=score)[0]`,
the first candidate with globally minimal score. -/
def v11_winner (p_n : Int) (candidates : List Int)
    (messiness_map : List (Int × PyFloat)) (modulus : Int) : Option CandData :=
  firstMinBy (fun d => d.score) (candidates_data p_n candidates messiness_map modulus)

/-- The closest messy-bin member: `messy_bin.sort(key=gap)[0]`, the first
messy candidate with minimal gap (`messy_best` in the script). -/
def messy_best (p_n : Int) (candidates : List Int)
    (messiness_map : List (Int × PyFloat)) (modulus : Int) : Option CandData :=
  firstMinBy (fun d => d.gap) (messy_bin p_n candidates messiness_map modulus)

/-- The v23.0 Logic Gate (universal version) of `PLR_Mod_Scaling_Test.py`:
score every candidate, pick the minimum-score arithmetic winner, then flip to
the closest messy-bin candidate when its gap is strictly smaller. -/
def get_v23_prediction (p_n : Int) (candidates : List Int)
    (messiness_map : List (Int × PyFloat)) (modulus : Int) : Option Int :=
  match firstMinBy (fun d => d.score) (candidates_data p_n candidates messiness_map modulus) with
  | none => none
  | some winner =>
    match firstMinBy (fun d => d.gap) (messy_bin p_n candidates messiness_map modulus) with
    | none => some winner.prime
    | some messy_best =>
      if messy_best.gap < winner.gap then some messy_best.prime else some winner.prime

/-! JSON residue-table loader and prime-list loader of
`Tests/PLR_Mod_Scaling_Test.py`. -/

/-- Values appearing in a residue-table JSON file: a numeric score, the JSON
`null`, or the non-standard literal token `Infinity`. -/
inductive JsonVal where
  | num (q : ℚ)
  | null
  | infinityLit
deriving DecidableEq

/-- Models `content.replace("Infinity", "null")` at the level of parsed
key/value tokens: every literal `Infinity` token becomes `null`. -/
def sanitizeInfinity (raw : List (Int × JsonVal)) : List (Int × JsonVal) :=
  raw.map fun kv =>
    match kv.2 with
    | .infinityLit => (kv.1, .null)
    | v => (kv.1, v)

/-- Robust JSON loader (`load_messiness_map`): sanitize the non-standard
`Infinity` token to `null`, parse, then build the final map with
`math.inf if v is None else float(v)`.  The file-missing and malformed-JSON
paths return `none`; after sanitizing no `Infinity` token remains, so that
unreachable case is modelled conservatively as a parse failure. -/
def load_messiness_map (raw : List (Int × JsonVal)) : Option (List (Int × PyFloat)) :=
  (sanitizeInfinity raw).mapM fun kv =>
    match kv.2 with
    | .null => some (kv.1, (⊤ : PyFloat))
    | .num q => some (kv.1, ((q : ℚ) : PyFloat))
    | .infinityLit => none

/-- Prime-list loader (`load_primes_from_file`): reads at most
`required = limit + 50` lines (requested test range plus lookahead buffer)
and returns them; the missing-file path returns `None`.  When the file holds
fewer primes than required the loader only prints a warning and still
returns the short list. -/
def load_primes_from_file (lines : Option (List Int)) (limit : Nat) : Option (List Int) :=
  match lines with
  | none => none
  | some ls => some (ls.take (limit + 50))

/-- The warning condition printed by `load_primes_from_file`: the file
contained fewer primes than requested. -/
def load_primes_warns (lines : List Int) (limit : Nat) : Bool :=
  decide ((lines.take (limit + 50)).length < limit + 50)

/-- Number of iterations of the per-prime test loop of `run_scaling_test`:
`max_index = min(len(all_primes) - 12, TEST_LIMIT)`, with `range` of a
negative bound giving zero iterations. -/
def scalingLoopIterations (all_primes : List Int) (limit : Nat) : Nat :=
  (min ((all_primes.length : Int) - 12) (limit : Int)).toNat

/-- Control flow of `run_scaling_test` around the loader: abort (`none`)
when the loader failed or returned an empty list (`if not all_primes`),
otherwise run the per-prime test loop `max_index` times and report how many
iterations ran. -/
def run_scaling_test (lines : Option (List Int)) (limit : Nat) : Option Nat :=
  match load_primes_from_file lines limit with
  | none => none
  | some all_primes =>
    if all_primes.isEmpty then none else some (scalingLoopIterations all_primes limit)

end ModScaling

/-! Embedding of `alternate/test/PLR_RSA_Breaker.py`: the hardcoded mod-6
PLR v23.0 engine written as a single accumulating loop. -/

namespace RsaBreaker

/-- The PAS constants hardcoded in the script:
`MESSINESS_SCORES = {0: 2.7126, 2: 26.2627, 4: 26.2859}`. -/
def MESSINESS_SCORES : List (Int × PyFloat) :=
  [(0, ((mkRat 27126 10000 : ℚ) : PyFloat)),
   (2, ((mkRat 262627 10000 : ℚ) : PyFloat)),
   (4, ((mkRat 262859 10000 : ℚ) : PyFloat))]

/-- Returns the PAS failure rate for a given anchor residue; models
`MESSINESS_SCORES.get(anchor % 6, 100.0)`. -/
def get_messiness_score (anchor : Int) : PyFloat :=
  mapGet MESSINESS_SCORES (anchor % 6) ((100 : ℚ) : PyFloat)

/-- Loop state of `get_plr_prediction`: running arithmetic winner
(`best_v11_score`, `v11_winner`, `v11_gap`, the latter initialised to
`float('inf')`) and running structural minimum of the messy bin
(`messy_lowest_gap`, `messy_lowest_prime`). -/
structure LoopState where
  best_v11_score : PyFloat
  v11_winner : Option Int
  v11_gap : PyFloat
  messy_lowest_gap : PyFloat
  messy_lowest_prime : Option Int
deriving DecidableEq

/-- Initial loop state: scores and gaps start at `float('inf')`, winners at
`None`. -/
def initState : LoopState :=
  { best_v11_score := ⊤, v11_winner := none, v11_gap := ⊤
    messy_lowest_gap := ⊤, messy_lowest_prime := none }

/-- One iteration of the `for q in candidate_pool` loop. -/
def loopStep (p_n : Int) (st : LoopState) (q : Int) : LoopState :=
  let gap := q - p_n
  let anchor := p_n + q
  let messiness := get_messiness_score anchor
  let score := messiness.map fun m => (m + 1) * (gap : ℚ)
  let st1 :=
    if score < st.best_v11_score then
      { st with best_v11_score := score, v11_winner := some q,
                v11_gap := ((gap : ℚ) : PyFloat) }
    else st
  if ((20 : ℚ) : PyFloat) < messiness then
    if ((gap : ℚ) : PyFloat) < st1.messy_lowest_gap then
      { st1 with messy_lowest_gap := ((gap : ℚ) : PyFloat),
                 messy_lowest_prime := some q }
    else st1
  else st1

/-- The v23.0 Internal Flip logic of `PLR_RSA_Breaker.py`: run the loop,
then flip to the closest messy prime when it is closer than the arithmetic
winner, else return the arithmetic winner. -/
def get_plr_prediction (p_n : Int) (candidate_pool : List Int) : Option Int :=
  let st := candidate_pool.foldl (loopStep p_n) initState
  match st.messy_lowest_prime with
  | some mp => if st.messy_lowest_gap < st.v11_gap then some mp else st.v11_winner
  | none => st.v11_winner

/-- The arithmetic (baseline, minimum-score) winner computed by the loop of
`get_plr_prediction`: the value of `v11_winner` after the loop. -/
def v11_winner_of (p_n : Int) (candidate_pool : List Int) : Option Int :=
  (candidate_pool.foldl (loopStep p_n) initState).v11_winner

/-- An anchor's residue is tabulated when it occurs among the keys of the
hardcoded `MESSINESS_SCORES` table. -/
def tabulated (anchor : Int) : Prop :=
  (anchor % 6) ∈ tableKeys MESSINESS_SCORES

instance (anchor : Int) : Decidable (tabulated anchor) :=
  inferInstanceAs (Decidable (_ ∈ _))

end RsaBreaker

/-! Embedding of `alternate/test/PLR_Efficiency_Memory_Optimized.py`: the
mod-6 engine whose lookup-miss sentinel is `math.inf`.  The module-level
`MESSINESS_MAP_V_MOD6` global is passed as the `messiness_map` parameter. -/

namespace EffOpt

/-- Standard threshold, `MESSY_THRESHOLD = 20.0`. -/
def MESSY_THRESHOLD : PyFloat := ((20 : ℚ) : PyFloat)

/-- Models `get_vmod6_score`: `MESSINESS_MAP_V_MOD6.get(anchor_sn % 6, math.inf)`. -/
def get_vmod6_score (messiness_map : List (Int × PyFloat)) (anchor_sn : Int) : PyFloat :=
  mapGet messiness_map (anchor_sn % 6) ⊤

/-- Models `get_messiness_score_v11_weighted`: `math.inf` when the mod-6
score is `math.inf`, else `(score_mod6 + 1.0) * gap_g_n`. -/
def get_messiness_score_v11_weighted (messiness_map : List (Int × PyFloat))
    (anchor_sn gap_g_n : Int) : PyFloat :=
  let score_mod6 := get_vmod6_score messiness_map anchor_sn
  if score_mod6 = ⊤ then ⊤ else score_mod6.map fun m => (m + 1) * (gap_g_n : ℚ)

/-- Per-candidate tuple `(score_v11, q_i, vmod6_rate, gap_g_i)` built by the
loop of `get_v23_internal_flip_prediction`. -/
structure EffData where
  score : PyFloat
  prime : Int
  rate : PyFloat
  gap : Int
deriving DecidableEq

/-- The `candidates_data` list of the loop. -/
def candidates_data (messiness_map : List (Int × PyFloat)) (p_n : Int)
    (candidates : List Int) : List EffData :=
  candidates.map fun q_i =>
    let S_cand := p_n + q_i
    let gap_g_i := q_i - p_n
    { score := get_messiness_score_v11_weighted messiness_map S_cand gap_g_i
      prime := q_i
      rate := get_vmod6_score messiness_map S_cand
      gap := gap_g_i }

/-- The `messy_bin`: tuples whose vmod6 rate exceeds `MESSY_THRESHOLD`. -/
def messy_bin (messiness_map : List (Int × PyFloat)) (p_n : Int)
    (candidates : List Int) : List EffData :=
  (candidates_data messiness_map p_n candidates).filter fun d =>
    decide (MESSY_THRESHOLD < d.rate)

/-- The analytic logic gate of the memory-optimized benchmark
(`get_v23_internal_flip_prediction`). -/
def get_v23_internal_flip_prediction (messiness_map : List (Int × PyFloat))
    (p_n : Int) (candidates : List Int) : Option Int :=
  match firstMinBy (fun d => d.score) (candidates_data messiness_map p_n candidates) with
  | none => none
  | some w =>
    match firstMinBy (fun d => d.gap) (messy_bin messiness_map p_n candidates) with
    | none => some w.prime
    | some mb => if mb.gap < w.gap then some mb.prime else some w.prime

end EffOpt

/-! Embedding of `alternate/test/PLR_Next_Prime_Generator.py`: the
S_n-anchored v23.0 predictor that builds its own candidate pool from the
gaps 2..POOL_WIDTH and uses the v16.0 chained-signature tie-breaker. -/

namespace NextPrimeGen

/-- Core S_n anchor data map:
`S_N_MESSINESS_MAP = {0: 1.0, 2: 21.6, 4: 20.6}`. -/
def S_N_MESSINESS_MAP : List (Int × PyFloat) :=
  [(0, ((1 : ℚ) : PyFloat)),
   (2, ((mkRat 216 10 : ℚ) : PyFloat)),
   (4, ((mkRat 206 10 : ℚ) : PyFloat))]

/-- Gap-residue messiness used only by the v16.0 tie-breaker:
`MESSINESS_MAP_V_MOD6_GAP = {0: 1.0, 1: 0.0, 2: 1.0, 3: 2.0, 4: 2.0, 5: 0.0}`. -/
def MESSINESS_MAP_V_MOD6_GAP : List (Int × PyFloat) :=
  [(0, ((1 : ℚ) : PyFloat)), (1, ((0 : ℚ) : PyFloat)), (2, ((1 : ℚ) : PyFloat)),
   (3, ((2 : ℚ) : PyFloat)), (4, ((2 : ℚ) : PyFloat)), (5, ((0 : ℚ) : PyFloat))]

/-- Engine threshold `CLEAN_THRESHOLD = 3.0`. -/
def CLEAN_THRESHOLD : PyFloat := ((3 : ℚ) : PyFloat)

/-- Engine threshold `MESSY_THRESHOLD = 20.0`. -/
def MESSY_THRESHOLD : PyFloat := ((20 : ℚ) : PyFloat)

/-- Engine constant `DEPTH_THRESHOLD = 4`. -/
def DEPTH_THRESHOLD : Nat := 4

/-- Trial-division loop `while i * i <= n` stepping `i += 6`; the fuel
argument only bounds the recursion and is always large enough that the
natural exit `i * i > n` fires first. -/
def is_prime_loop (n : Nat) (i : Nat) : Nat → Bool
  | 0 => true
  | fuel + 1 =>
    if i * i ≤ n then
      if n % i = 0 || n % (i + 2) = 0 then false
      else is_prime_loop n (i + 6) fuel
    else true

/-- Primality test of the script (6k ± 1 trial division). -/
def is_prime (n : Int) : Bool :=
  if n ≤ 1 then false
  else if n ≤ 3 then true
  else if n % 2 = 0 || n % 3 = 0 then false
  else is_prime_loop n.toNat 5 n.toNat

/-- Candidate record `{'g': g, 'mess': messiness, 'p': candidate_p}`. -/
structure NpgCand where
  g : Int
  mess : PyFloat
  p : Int
deriving DecidableEq

/-- Models `get_messiness_score(p_n, candidate_p)`: the true messiness based
on `S_n % 6`, defaulting to 999.0 for residues outside the map. -/
def get_messiness_score (p_n candidate_p : Int) : PyFloat :=
  mapGet S_N_MESSINESS_MAP ((p_n + candidate_p) % 6) ((999 : ℚ) : PyFloat)

/-- Pool construction `for g in range(2, POOL_WIDTH + 1)` (POOL_WIDTH = 210)
with the primality filter. -/
def candidates (p_n : Int) : List NpgCand :=
  (List.range' 2 209).filterMap fun g =>
    let candidate_p := p_n + (g : Int)
    if is_prime candidate_p then
      some { g := (g : Int), mess := get_messiness_score p_n candidate_p, p := candidate_p }
    else none

/-- Structural minimum search: the first messy candidate encountered
(tracked by the `if g_messy_low == -1` logic, so the lowest-gap messy one).
Note the script classifies messy with `messiness >= MESSY_THRESHOLD`. -/
def messy_first (p_n : Int) : Option NpgCand :=
  (candidates p_n).find? fun c => decide (MESSY_THRESHOLD ≤ c.mess)

/-- The standard PLR v16.0 winner as a pair `(g_v16_winner, p_v16_winner)`:
with at most one clean candidate, the overall best by messiness
(`sorted(candidates, key=mess)[0]`); with several, the chained-signature
tie-breaker over the first `DEPTH_THRESHOLD` clean candidates.  The `none`
branch mirrors the initial `-1` markers and is unreachable for a non-empty
pool, where Python indexes `sorted_candidates[0]`. -/
def v16_winner (cands : List NpgCand) : Int × Int :=
  let clean_pool := cands.filter fun c => decide (c.mess < CLEAN_THRESHOLD)
  if clean_pool.length ≤ 1 then
    match firstMinBy (fun c => c.mess) cands with
    | some c => (c.g, c.p)
    | none => (-1, -1)
  else
    let r := (clean_pool.take DEPTH_THRESHOLD).foldl
      (fun (acc : PyFloat × Int × Int) c =>
        let gap_messiness := mapGet MESSINESS_MAP_V_MOD6_GAP (c.g % 6) ((999 : ℚ) : PyFloat)
        if gap_messiness < acc.1 then (gap_messiness, c.g, c.p) else acc)
      (⊤, -1, -1)
    r.2

/-- The v23.0 analytic logic gate of `PLR_Next_Prime_Generator.py`:
`none` models the "no prime candidate found in the pool" error return;
otherwise the flip fires whenever `g_messy_low < g_v16_winner`, with
`g_messy_low` and `p_messy_low` staying at `-1` when no messy candidate was
seen. -/
def get_v23_prediction (p_n : Int) : Option Int :=
  let cands := candidates p_n
  if cands.isEmpty then none
  else
    let g_messy_low := ((messy_first p_n).map NpgCand.g).getD (-1)
    let p_messy_low := ((messy_first p_n).map NpgCand.p).getD (-1)
    let w := v16_winner cands
    if g_messy_low < w.1 then some p_messy_low else some w.2

end NextPrimeGen

/-! Abbreviations used to relate the accumulating loop of the RSA-breaker
engine to the sort-based universal engine. -/

/-- Value of the running `best_v11_score` given the running first-minimum
element of the processed prefix (initially `float('inf')`). -/
def optScore (o : Option ModScaling.CandData) : PyFloat :=
  match o with
  | none => ⊤
  | some d => d.score

/-- Value of a running gap given the running first-minimum element
(initially `float('inf')`, then the stored integer gap as a float). -/
def optGapQ (o : Option ModScaling.CandData) : PyFloat :=
  match o with
  | none => ⊤
  | some d => ((d.gap : ℚ) : PyFloat)

/-- Value of a running winner variable given the running first-minimum
element (initially `None`). -/
def optPrime (o : Option ModScaling.CandData) : Option Int :=
  o.map fun d => d.prime

/-- The candidate record the universal engine builds for a candidate `q`
when instantiated with the RSA-breaker's table and modulus 6. -/
def rsaCand (p_n q : Int) : ModScaling.CandData :=
  let gap := q - p_n
  let anchor := p_n + q
  let messiness := ModScaling.get_messiness_score anchor RsaBreaker.MESSINESS_SCORES 6
  { prime := q, gap := gap, score := ModScaling.scoreV11 messiness gap, messiness := messiness }

/-- First stage of `RsaBreaker.loopStep`: the arithmetic-winner update
(`if score < best_v11_score`). -/
def winnerUpdate (p q : Int) (st : RsaBreaker.LoopState) : RsaBreaker.LoopState :=
  if (rsaCand p q).score < st.best_v11_score then
    { st with best_v11_score := (rsaCand p q).score, v11_winner := some q,
              v11_gap := (((q - p : Int) : ℚ) : PyFloat) }
  else st

/-- Second stage of `RsaBreaker.loopStep`: the messy-bin update
(`if messiness > 20.0` and `if gap < messy_lowest_gap`). -/
def messyUpdate (p q : Int) (st : RsaBreaker.LoopState) : RsaBreaker.LoopState :=
  if ((20 : ℚ) : PyFloat) < (rsaCand p q).messiness then
    if (((q - p : Int) : ℚ) : PyFloat) < st.messy_lowest_gap then
      { st with messy_lowest_gap := (((q - p : Int) : ℚ) : PyFloat),
                messy_lowest_prime := some q }
    else st
  else st

/-- Running first-minimum-by-score over the candidate records the universal
engine builds with the RSA-breaker's configuration. -/
def scoreFold (p : Int) (pool : List Int) (a : Option ModScaling.CandData) :
    Option ModScaling.CandData :=
  pool.foldl (fun acc q => minStep (fun d => d.score) acc (rsaCand p q)) a

/-- Running first-minimum-by-gap over the messy candidate records. -/
def messyFold (p : Int) (pool : List Int) (a : Option ModScaling.CandData) :
    Option ModScaling.CandData :=
  pool.foldl (fun acc q =>
    if ((20 : ℚ) : PyFloat) < (rsaCand p q).messiness then
      minStep (fun d => d.gap) acc (rsaCand p q)
    else acc) a

/-! Basic facts about the helpers. -/

theorem mapGet_absent (m : List (Int × PyFloat)) (k : Int) (dflt : PyFloat)
    (h : k ∉ tableKeys m) : mapGet m k dflt = dflt := by
  induction m with
  | nil => rfl
  | cons kv rest ih =>
    obtain ⟨k', v⟩ := kv
    simp only [tableKeys, List.map_cons, List.mem_cons, not_or] at h
    simp only [mapGet, if_neg h.1]
    exact ih (by simpa [tableKeys] using h.2)

theorem mapGet_mem_or_default (m : List (Int × PyFloat)) (k : Int) (dflt : PyFloat) :
    (∃ kv ∈ m, mapGet m k dflt = kv.2) ∨ mapGet m k dflt = dflt := by
  induction m with
  | nil => exact Or.inr rfl
  | cons kv rest ih =>
    obtain ⟨k', v⟩ := kv
    by_cases h : k = k'
    · exact Or.inl ⟨(k', v), List.mem_cons_self _ _, by simp [mapGet, h]⟩
    · rcases ih with ⟨kv', hmem, heq⟩ | heq
      · exact Or.inl ⟨kv', List.mem_cons_of_mem _ hmem, by simp [mapGet, h, heq]⟩
      · exact Or.inr (by simp [mapGet, h, heq])

theorem foldl_minStep_some {α κ : Type} [LinearOrder κ] (key : α → κ) :
    ∀ (l : List α) (b : α), ∃ c, l.foldl (minStep key) (some b) = some c ∧
      (c = b ∨ c ∈ l) ∧ key c ≤ key b ∧ ∀ y ∈ l, key c ≤ key y := by
  intro l
  induction l with
  | nil => exact fun b => ⟨b, rfl, Or.inl rfl, le_refl _, by simp⟩
  | cons x xs ih =>
    intro b
    by_cases h : key x < key b
    · obtain ⟨c, hc, hmem, hle, hall⟩ := ih x
      refine ⟨c, ?_, ?_, le_trans hle (le_of_lt h), ?_⟩
      · simpa [List.foldl_cons, minStep, if_pos h] using hc
      · rcases hmem with rfl | hmem
        · exact Or.inr (List.mem_cons_self _ _)
        · exact Or.inr (List.mem_cons_of_mem _ hmem)
      · intro y hy
        rcases List.mem_cons.mp hy with rfl | hy
        · exact hle
        · exact hall y hy
    · obtain ⟨c, hc, hmem, hle, hall⟩ := ih b
      refine ⟨c, ?_, ?_, hle, ?_⟩
      · simpa [List.foldl_cons, minStep, if_neg h] using hc
      · rcases hmem with rfl | hmem
        · exact Or.inl rfl
        · exact Or.inr (List.mem_cons_of_mem _ hmem)
      · intro y hy
        rcases List.mem_cons.mp hy with rfl | hy
        · exact le_trans hle (le_of_not_lt h)
        · exact hall y hy

theorem firstMinBy_eq_none_iff {α κ : Type} [LinearOrder κ] (key : α → κ) (l : List α) :
    firstMinBy key l = none ↔ l = [] := by
  cases l with
  | nil => simp [firstMinBy]
  | cons x xs =>
    obtain ⟨c, hc, -, -, -⟩ := foldl_minStep_some key xs x
    simp [firstMinBy, List.foldl_cons, minStep, hc]

theorem firstMinBy_spec {α κ : Type} [LinearOrder κ] (key : α → κ) (l : List α) (c : α)
    (h : firstMinBy key l = some c) : c ∈ l ∧ ∀ y ∈ l, key c ≤ key y := by
  cases l with
  | nil => simp [firstMinBy] at h
  | cons x xs =>
    obtain ⟨c', hc', hmem, hle, hall⟩ := foldl_minStep_some key xs x
    have hcc : c' = c := by
      have hh := h
      simp only [firstMinBy, List.foldl_cons, minStep] at hh
      rw [hc'] at hh
      exact Option.some.inj hh
    subst hcc
    constructor
    · rcases hmem with rfl | hmem
      · exact List.mem_cons_self _ _
      · exact List.mem_cons_of_mem _ hmem
    · intro y hy
      rcases List.mem_cons.mp hy with rfl | hy
      · exact hle
      · exact hall y hy

theorem firstMinBy_isSome {α κ : Type} [LinearOrder κ] (key : α → κ) (l : List α)
    (h : l ≠ []) : ∃ c, firstMinBy key l = some c := by
  cases hf : firstMinBy key l with
  | none => exact absurd ((firstMinBy_eq_none_iff key l).mp hf) h
  | some c => exact ⟨c, rfl⟩

theorem foldl_filter {α β : Type} (p : α → Bool) (f : β → α → β) :
    ∀ (l : List α) (b : β),
      (l.filter p).foldl f b = l.foldl (fun x y => if p y then f x y else x) b := by
  intro l
  induction l with
  | nil => intro b; rfl
  | cons x xs ih =>
    intro b
    by_cases h : p x <;> simp [List.filter_cons, h, ih]

/-! Equivalence of the RSA-breaker loop with the universal sort-based
engine instantiated at the RSA-breaker's table and modulus 6. -/

theorem coe_int_lt_pyfloat (a b : Int) :
    (((a : ℚ) : PyFloat) < ((b : ℚ) : PyFloat)) ↔ a < b := by
  rw [WithTop.coe_lt_coe]
  exact Int.cast_lt

theorem rsaCand_messiness_ne_top (p q : Int) : (rsaCand p q).messiness ≠ ⊤ := by
  show mapGet RsaBreaker.MESSINESS_SCORES ((p + q) % 6) ((100 : ℚ) : PyFloat) ≠ ⊤
  simp only [RsaBreaker.MESSINESS_SCORES, mapGet]
  split_ifs <;> exact WithTop.coe_ne_top

theorem rsaCand_score_ne_top (p q : Int) : (rsaCand p q).score ≠ ⊤ := by
  have h := rsaCand_messiness_ne_top p q
  show ModScaling.scoreV11 (rsaCand p q).messiness (q - p) ≠ ⊤
  cases hmess : (rsaCand p q).messiness with
  | none => exact absurd hmess h
  | some m =>
    simp [ModScaling.scoreV11, hmess, WithTop.map_coe]

theorem loopStep_eq_stages (p q : Int) (st : RsaBreaker.LoopState) :
    RsaBreaker.loopStep p st q = messyUpdate p q (winnerUpdate p q st) := rfl

theorem winnerUpdate_rel (p q : Int) (a1 : Option ModScaling.CandData)
    (st : RsaBreaker.LoopState)
    (h1 : st.best_v11_score = optScore a1)
    (h2 : st.v11_winner = optPrime a1)
    (h3 : st.v11_gap = optGapQ a1) :
    (winnerUpdate p q st).best_v11_score
        = optScore (minStep (fun d => d.score) a1 (rsaCand p q))
    ∧ (winnerUpdate p q st).v11_winner
        = optPrime (minStep (fun d => d.score) a1 (rsaCand p q))
    ∧ (winnerUpdate p q st).v11_gap
        = optGapQ (minStep (fun d => d.score) a1 (rsaCand p q))
    ∧ (winnerUpdate p q st).messy_lowest_gap = st.messy_lowest_gap
    ∧ (winnerUpdate p q st).messy_lowest_prime = st.messy_lowest_prime := by
  cases a1 with
  | none =>
    simp only [optScore] at h1
    have hc : (rsaCand p q).score < st.best_v11_score := by
      rw [h1]
      exact WithTop.lt_top_iff_ne_top.mpr (rsaCand_score_ne_top p q)
    unfold winnerUpdate
    rw [if_pos hc]
    exact ⟨rfl, rfl, rfl, rfl, rfl⟩
  | some b =>
    simp only [optScore] at h1
    dsimp only [minStep]
    by_cases hc : (rsaCand p q).score < b.score
    · have hc' : (rsaCand p q).score < st.best_v11_score := by rw [h1]; exact hc
      unfold winnerUpdate
      rw [if_pos hc', if_pos hc]
      exact ⟨rfl, rfl, rfl, rfl, rfl⟩
    · have hc' : ¬ (rsaCand p q).score < st.best_v11_score := by rw [h1]; exact hc
      unfold winnerUpdate
      rw [if_neg hc', if_neg hc]
      exact ⟨h1, h2, h3, rfl, rfl⟩

theorem messyUpdate_rel (p q : Int) (a2 : Option ModScaling.CandData)
    (st : RsaBreaker.LoopState)
    (h4 : st.messy_lowest_gap = optGapQ a2)
    (h5 : st.messy_lowest_prime = optPrime a2) :
    (messyUpdate p q st).messy_lowest_gap
        = optGapQ (if ((20 : ℚ) : PyFloat) < (rsaCand p q).messiness then
            minStep (fun d => d.gap) a2 (rsaCand p q) else a2)
    ∧ (messyUpdate p q st).messy_lowest_prime
        = optPrime (if ((20 : ℚ) : PyFloat) < (rsaCand p q).messiness then
            minStep (fun d => d.gap) a2 (rsaCand p q) else a2)
    ∧ (messyUpdate p q st).best_v11_score = st.best_v11_score
    ∧ (messyUpdate p q st).v11_winner = st.v11_winner
    ∧ (messyUpdate p q st).v11_gap = st.v11_gap := by
  by_cases hm : ((20 : ℚ) : PyFloat) < (rsaCand p q).messiness
  · rw [if_pos hm]
    cases a2 with
    | none =>
      simp only [optGapQ] at h4
      have hc : (((q - p : Int) : ℚ) : PyFloat) < st.messy_lowest_gap := by
        rw [h4]; exact WithTop.coe_lt_top _
      unfold messyUpdate
      rw [if_pos hm, if_pos hc]
      exact ⟨rfl, rfl, rfl, rfl, rfl⟩
    | some b =>
      simp only [optGapQ] at h4
      dsimp only [minStep]
      by_cases hg : (rsaCand p q).gap < b.gap
      · have hg' : (((q - p : Int) : ℚ) : PyFloat) < st.messy_lowest_gap := by
          rw [h4]
          exact (coe_int_lt_pyfloat _ _).mpr hg
        unfold messyUpdate
        rw [if_pos hm, if_pos hg', if_pos hg]
        exact ⟨rfl, rfl, rfl, rfl, rfl⟩
      · have hg' : ¬ (((q - p : Int) : ℚ) : PyFloat) < st.messy_lowest_gap := by
          rw [h4]
          intro hcon
          exact hg ((coe_int_lt_pyfloat _ _).mp hcon)
        unfold messyUpdate
        rw [if_pos hm, if_neg hg', if_neg hg]
        exact ⟨h4, h5, rfl, rfl, rfl⟩
  · rw [if_neg hm]
    unfold messyUpdate
    rw [if_neg hm]
    exact ⟨h4, h5, rfl, rfl, rfl⟩

theorem rsa_fold_invariant (p : Int) :
    ∀ (pool : List Int) (a1 a2 : Option ModScaling.CandData) (st : RsaBreaker.LoopState),
      st.best_v11_score = optScore a1 → st.v11_winner = optPrime a1 →
      st.v11_gap = optGapQ a1 → st.messy_lowest_gap = optGapQ a2 →
      st.messy_lowest_prime = optPrime a2 →
      (pool.foldl (RsaBreaker.loopStep p) st).best_v11_score = optScore (scoreFold p pool a1)
      ∧ (pool.foldl (RsaBreaker.loopStep p) st).v11_winner = optPrime (scoreFold p pool a1)
      ∧ (pool.foldl (RsaBreaker.loopStep p) st).v11_gap = optGapQ (scoreFold p pool a1)
      ∧ (pool.foldl (RsaBreaker.loopStep p) st).messy_lowest_gap
          = optGapQ (messyFold p pool a2)
      ∧ (pool.foldl (RsaBreaker.loopStep p) st).messy_lowest_prime
          = optPrime (messyFold p pool a2) := by
  intro pool
  induction pool with
  | nil =>
    intro a1 a2 st h1 h2 h3 h4 h5
    exact ⟨h1, h2, h3, h4, h5⟩
  | cons q rest ih =>
    intro a1 a2 st h1 h2 h3 h4 h5
    obtain ⟨w1, w2, w3, w4, w5⟩ := winnerUpdate_rel p q a1 st h1 h2 h3
    have h4' : (winnerUpdate p q st).messy_lowest_gap = optGapQ a2 := by rw [w4]; exact h4
    have h5' : (winnerUpdate p q st).messy_lowest_prime = optPrime a2 := by rw [w5]; exact h5
    obtain ⟨m1, m2, m3, m4, m5⟩ := messyUpdate_rel p q a2 (winnerUpdate p q st) h4' h5'
    have e1 : (RsaBreaker.loopStep p st q).best_v11_score
        = optScore (minStep (fun d => d.score) a1 (rsaCand p q)) := by
      rw [loopStep_eq_stages, m3]; exact w1
    have e2 : (RsaBreaker.loopStep p st q).v11_winner
        = optPrime (minStep (fun d => d.score) a1 (rsaCand p q)) := by
      rw [loopStep_eq_stages, m4]; exact w2
    have e3 : (RsaBreaker.loopStep p st q).v11_gap
        = optGapQ (minStep (fun d => d.score) a1 (rsaCand p q)) := by
      rw [loopStep_eq_stages, m5]; exact w3
    have e4 : (RsaBreaker.loopStep p st q).messy_lowest_gap
        = optGapQ (if ((20 : ℚ) : PyFloat) < (rsaCand p q).messiness then
            minStep (fun d => d.gap) a2 (rsaCand p q) else a2) := by
      rw [loopStep_eq_stages]; exact m1
    have e5 : (RsaBreaker.loopStep p st q).messy_lowest_prime
        = optPrime (if ((20 : ℚ) : PyFloat) < (rsaCand p q).messiness then
            minStep (fun d => d.gap) a2 (rsaCand p q) else a2) := by
      rw [loopStep_eq_stages]; exact m2
    have hs : scoreFold p (q :: rest) a1
        = scoreFold p rest (minStep (fun d => d.score) a1 (rsaCand p q)) := rfl
    have hm : messyFold p (q :: rest) a2
        = messyFold p rest (if ((20 : ℚ) : PyFloat) < (rsaCand p q).messiness then
            minStep (fun d => d.gap) a2 (rsaCand p q) else a2) := rfl
    rw [List.foldl_cons, hs, hm]
    exact ih _ _ _ e1 e2 e3 e4 e5

theorem v11_winner_eq_scoreFold (p : Int) (pool : List Int) :
    ModScaling.v11_winner p pool RsaBreaker.MESSINESS_SCORES 6 = scoreFold p pool none := by
  show (ModScaling.candidates_data p pool RsaBreaker.MESSINESS_SCORES 6).foldl
      (minStep fun d => d.score) none = scoreFold p pool none
  rw [show ModScaling.candidates_data p pool RsaBreaker.MESSINESS_SCORES 6
      = pool.map (rsaCand p) from rfl]
  rw [List.foldl_map]
  rfl

theorem messy_best_eq_messyFold (p : Int) (pool : List Int) :
    ModScaling.messy_best p pool RsaBreaker.MESSINESS_SCORES 6 = messyFold p pool none := by
  have hfun : (fun (acc : Option ModScaling.CandData) (q : Int) =>
        if decide (ModScaling.MESSY_THRESHOLD < (rsaCand p q).messiness) = true then
          minStep (fun d => d.gap) acc (rsaCand p q)
        else acc)
      = (fun (acc : Option ModScaling.CandData) (q : Int) =>
        if ((20 : ℚ) : PyFloat) < (rsaCand p q).messiness then
          minStep (fun d => d.gap) acc (rsaCand p q)
        else acc) := by
    funext acc q
    simp only [ModScaling.MESSY_THRESHOLD]
    by_cases hm : ((20 : ℚ) : PyFloat) < (rsaCand p q).messiness
    · rw [if_pos hm, if_pos (decide_eq_true hm)]
    · rw [if_neg hm, if_neg (fun hcon => hm (of_decide_eq_true hcon))]
  show (ModScaling.messy_bin p pool RsaBreaker.MESSINESS_SCORES 6).foldl
      (minStep fun d => d.gap) none = messyFold p pool none
  rw [show ModScaling.messy_bin p pool RsaBreaker.MESSINESS_SCORES 6
      = (pool.map (rsaCand p)).filter
          (fun d => decide (ModScaling.MESSY_THRESHOLD < d.messiness)) from rfl]
  rw [foldl_filter, List.foldl_map]
  exact congrArg (fun f => List.foldl f none pool) hfun

theorem rsa_state_spec (p : Int) (pool : List Int) :
    (pool.foldl (RsaBreaker.loopStep p) RsaBreaker.initState).best_v11_score
        = optScore (ModScaling.v11_winner p pool RsaBreaker.MESSINESS_SCORES 6)
    ∧ (pool.foldl (RsaBreaker.loopStep p) RsaBreaker.initState).v11_winner
        = optPrime (ModScaling.v11_winner p pool RsaBreaker.MESSINESS_SCORES 6)
    ∧ (pool.foldl (RsaBreaker.loopStep p) RsaBreaker.initState).v11_gap
        = optGapQ (ModScaling.v11_winner p pool RsaBreaker.MESSINESS_SCORES 6)
    ∧ (pool.foldl (RsaBreaker.loopStep p) RsaBreaker.initState).messy_lowest_gap
        = optGapQ (ModScaling.messy_best p pool RsaBreaker.MESSINESS_SCORES 6)
    ∧ (pool.foldl (RsaBreaker.loopStep p) RsaBreaker.initState).messy_lowest_prime
        = optPrime (ModScaling.messy_best p pool RsaBreaker.MESSINESS_SCORES 6) := by
  rw [v11_winner_eq_scoreFold, messy_best_eq_messyFold]
  exact rsa_fold_invariant p pool none none RsaBreaker.initState rfl rfl rfl rfl rfl

theorem get_v23_prediction_eq_cases (p_n : Int) (pool : List Int)
    (mmap : List (Int × PyFloat)) (modulus : Int) :
    ModScaling.get_v23_prediction p_n pool mmap modulus
      = match ModScaling.v11_winner p_n pool mmap modulus with
        | none => none
        | some winner =>
          match ModScaling.messy_best p_n pool mmap modulus with
          | none => some winner.prime
          | some mb =>
            if mb.gap < winner.gap then some mb.prime else some winner.prime := rfl

theorem modscaling_eq_rsa (p : Int) (pool : List Int) :
    ModScaling.get_v23_prediction p pool RsaBreaker.MESSINESS_SCORES 6
      = RsaBreaker.get_plr_prediction p pool := by
  obtain ⟨hbest, hwin, hgap, hmgap, hmp⟩ := rsa_state_spec p pool
  rw [get_v23_prediction_eq_cases]
  show _ = match (pool.foldl (RsaBreaker.loopStep p) RsaBreaker.initState).messy_lowest_prime with
    | some mp =>
      if (pool.foldl (RsaBreaker.loopStep p) RsaBreaker.initState).messy_lowest_gap
          < (pool.foldl (RsaBreaker.loopStep p) RsaBreaker.initState).v11_gap then some mp
      else (pool.foldl (RsaBreaker.loopStep p) RsaBreaker.initState).v11_winner
    | none => (pool.foldl (RsaBreaker.loopStep p) RsaBreaker.initState).v11_winner
  cases hW : ModScaling.v11_winner p pool RsaBreaker.MESSINESS_SCORES 6 with
  | none =>
    have hdata : ModScaling.candidates_data p pool RsaBreaker.MESSINESS_SCORES 6 = [] :=
      (firstMinBy_eq_none_iff _ _).mp hW
    have hMB : ModScaling.messy_bin p pool RsaBreaker.MESSINESS_SCORES 6 = [] := by
      show (ModScaling.candidates_data p pool RsaBreaker.MESSINESS_SCORES 6).filter _ = []
      rw [hdata]
      rfl
    have hM : ModScaling.messy_best p pool RsaBreaker.MESSINESS_SCORES 6 = none := by
      show firstMinBy (fun d => d.gap) (ModScaling.messy_bin p pool RsaBreaker.MESSINESS_SCORES 6)
          = none
      rw [hMB]
      rfl
    rw [hW] at hwin
    rw [hM] at hmp
    simp only [optPrime, Option.map_none'] at hwin hmp
    rw [hmp, hwin]
  | some w =>
    rw [hW] at hwin hgap
    simp only [optPrime, optGapQ, Option.map_some'] at hwin hgap
    cases hM : ModScaling.messy_best p pool RsaBreaker.MESSINESS_SCORES 6 with
    | none =>
      rw [hM] at hmp
      simp only [optPrime, Option.map_none'] at hmp
      rw [hmp, hwin]
    | some mb =>
      rw [hM] at hmp hmgap
      simp only [optPrime, optGapQ, Option.map_some'] at hmp hmgap
      rw [hmp, hmgap, hgap, hwin]
      show (if mb.gap < w.gap then some mb.prime else some w.prime)
          = (if ((mb.gap : ℚ) : PyFloat) < ((w.gap : ℚ) : PyFloat) then some mb.prime
             else some w.prime)
      by_cases hg : mb.gap < w.gap
      · rw [if_pos hg, if_pos ((coe_int_lt_pyfloat _ _).mpr hg)]
      · rw [if_neg hg, if_neg (fun hcon => hg ((coe_int_lt_pyfloat _ _).mp hcon))]

theorem rsa_mess_absent_eq (a : Int) (h : ¬ RsaBreaker.tabulated a) :
    RsaBreaker.get_messiness_score a = ((100 : ℚ) : PyFloat) :=
  mapGet_absent _ _ _ h

theorem rsa_mess_tabulated_le (a : Int) (h : RsaBreaker.tabulated a) :
    RsaBreaker.get_messiness_score a ≤ ((mkRat 262859 10000 : ℚ) : PyFloat) := by
  have h' : a % 6 = 0 ∨ a % 6 = 2 ∨ a % 6 = 4 := by
    simpa [RsaBreaker.tabulated, tableKeys, RsaBreaker.MESSINESS_SCORES] using h
  show mapGet RsaBreaker.MESSINESS_SCORES (a % 6) ((100 : ℚ) : PyFloat)
      ≤ ((mkRat 262859 10000 : ℚ) : PyFloat)
  rcases h' with h' | h' | h' <;> rw [h'] <;> decide

theorem rsa_mess_nonneg (a : Int) :
    ((0 : ℚ) : PyFloat) ≤ RsaBreaker.get_messiness_score a := by
  show ((0 : ℚ) : PyFloat) ≤ mapGet RsaBreaker.MESSINESS_SCORES (a % 6) ((100 : ℚ) : PyFloat)
  simp only [RsaBreaker.MESSINESS_SCORES, mapGet]
  split_ifs <;> decide

theorem candidates_data_prime_mem (p_n : Int) (pool : List Int)
    (mmap : List (Int × PyFloat)) (modulus : Int) :
    ∀ d ∈ ModScaling.candidates_data p_n pool mmap modulus, d.prime ∈ pool := by
  intro d hd
  obtain ⟨q, hq, hfq⟩ := List.mem_map.mp hd
  rw [← hfq]
  exact hq

/-! The claims. -/

/-- C1: for every `p_n` and every non-empty candidate pool, the predictor
returns a member of the candidate pool, and it returns the "no prediction"
sentinel `None` if and only if the candidate pool is empty. -/
theorem c1_predictor_membership (p_n : Int) (pool : List Int)
    (mmap : List (Int × PyFloat)) (modulus : Int) :
    (pool ≠ [] → ∃ q ∈ pool, ModScaling.get_v23_prediction p_n pool mmap modulus = some q)
    ∧ (ModScaling.get_v23_prediction p_n pool mmap modulus = none ↔ pool = []) := by
  rw [get_v23_prediction_eq_cases]
  cases hW : ModScaling.v11_winner p_n pool mmap modulus with
  | none =>
    have hpool : pool = [] := by
      have hdata := (firstMinBy_eq_none_iff (fun d : ModScaling.CandData => d.score)
        (ModScaling.candidates_data p_n pool mmap modulus)).mp hW
      exact List.map_eq_nil_iff.mp hdata
    subst hpool
    exact ⟨fun h => absurd rfl h, by simp⟩
  | some w =>
    have hw_mem : w.prime ∈ pool :=
      candidates_data_prime_mem p_n pool mmap modulus w
        (firstMinBy_spec (fun d : ModScaling.CandData => d.score) _ _ hW).1
    constructor
    · intro _
      cases hM : ModScaling.messy_best p_n pool mmap modulus with
      | none => exact ⟨w.prime, hw_mem, rfl⟩
      | some mb =>
        have hmb_mem : mb.prime ∈ pool := by
          have hmb := (firstMinBy_spec (fun d : ModScaling.CandData => d.gap) _ _ hM).1
          exact candidates_data_prime_mem p_n pool mmap modulus mb
            (List.mem_of_mem_filter hmb)
        by_cases hg : mb.gap < w.gap
        · refine ⟨mb.prime, hmb_mem, ?_⟩
          show (if mb.gap < w.gap then some mb.prime else some w.prime) = some mb.prime
          rw [if_pos hg]
        · refine ⟨w.prime, hw_mem, ?_⟩
          show (if mb.gap < w.gap then some mb.prime else some w.prime) = some w.prime
          rw [if_neg hg]
    · constructor
      · intro hnone
        exfalso
        cases hM : ModScaling.messy_best p_n pool mmap modulus with
        | none => rw [hM] at hnone; exact Option.noConfusion hnone
        | some mb =>
          rw [hM] at hnone
          have hnone' : (if mb.gap < w.gap then some mb.prime else some w.prime)
              = (none : Option Int) := hnone
          by_cases hg : mb.gap < w.gap
          · rw [if_pos hg] at hnone'; exact Option.noConfusion hnone'
          · rw [if_neg hg] at hnone'; exact Option.noConfusion hnone'
      · intro hpool
        subst hpool
        rw [show ModScaling.v11_winner p_n [] mmap modulus = none from rfl] at hW
        exact Option.noConfusion hW

/-- Witness for C1 at the concrete scenario-1 input. -/
theorem c1_predictor_membership_witness :
    ((([5, 7, 11, 13] : List Int) ≠ []) →
      ∃ q ∈ ([5, 7, 11, 13] : List Int),
        ModScaling.get_v23_prediction 3 [5, 7, 11, 13] RsaBreaker.MESSINESS_SCORES 6 = some q)
    ∧ (ModScaling.get_v23_prediction 3 [5, 7, 11, 13] RsaBreaker.MESSINESS_SCORES 6 = none
        ↔ ([5, 7, 11, 13] : List Int) = []) :=
  c1_predictor_membership 3 [5, 7, 11, 13] RsaBreaker.MESSINESS_SCORES 6

/-- C2: for every `p_n` and non-empty pool in which no candidate's messiness
exceeds `MESSY_THRESHOLD` (20.0), the prediction equals the minimum-score
baseline winner: the flip never changes the result when the messy bin is
empty. -/
theorem c2_no_messy_no_flip (p_n : Int) (pool : List Int)
    (mmap : List (Int × PyFloat)) (modulus : Int) (hne : pool ≠ [])
    (hclean : ∀ d ∈ ModScaling.candidates_data p_n pool mmap modulus,
      ¬ ModScaling.MESSY_THRESHOLD < d.messiness) :
    ∃ w, ModScaling.v11_winner p_n pool mmap modulus = some w
      ∧ ModScaling.get_v23_prediction p_n pool mmap modulus = some w.prime := by
  have hMB : ModScaling.messy_bin p_n pool mmap modulus = [] := by
    show (ModScaling.candidates_data p_n pool mmap modulus).filter _ = []
    rw [List.filter_eq_nil_iff]
    intro d hd
    simp only [decide_eq_true_eq]
    exact hclean d hd
  have hdata_ne : ModScaling.candidates_data p_n pool mmap modulus ≠ [] := by
    intro hc
    exact hne (List.map_eq_nil_iff.mp hc)
  obtain ⟨w, hW⟩ : ∃ w, ModScaling.v11_winner p_n pool mmap modulus = some w :=
    firstMinBy_isSome _ _ hdata_ne
  have hM : ModScaling.messy_best p_n pool mmap modulus = none := by
    show firstMinBy (fun d => d.gap) (ModScaling.messy_bin p_n pool mmap modulus) = none
    rw [hMB]
    rfl
  refine ⟨w, hW, ?_⟩
  rw [get_v23_prediction_eq_cases, hW, hM]

/-- Witness for C2 at a concrete all-clean input. -/
theorem c2_no_messy_no_flip_witness :
    ∃ w, ModScaling.v11_winner 1 [5] [(0, ((1 : ℚ) : PyFloat))] 6 = some w
      ∧ ModScaling.get_v23_prediction 1 [5] [(0, ((1 : ℚ) : PyFloat))] 6 = some w.prime :=
  c2_no_messy_no_flip 1 [5] [(0, ((1 : ℚ) : PyFloat))] 6 (by decide) (by decide)

/-- C3: for every `p_n` and non-empty pool, if the prediction differs from
the baseline winner then it is the smallest-gap messy-bin member and its gap
is strictly smaller than the baseline winner's; conversely, when the
smallest messy-bin gap is not strictly smaller, the prediction is the
baseline winner. -/
theorem c3_flip_characterisation (p_n : Int) (pool : List Int)
    (mmap : List (Int × PyFloat)) (modulus : Int) (hne : pool ≠ []) :
    ∃ w, ModScaling.v11_winner p_n pool mmap modulus = some w
      ∧ (ModScaling.get_v23_prediction p_n pool mmap modulus ≠ some w.prime →
          ∃ mb, ModScaling.messy_best p_n pool mmap modulus = some mb
            ∧ ModScaling.get_v23_prediction p_n pool mmap modulus = some mb.prime
            ∧ mb.gap < w.gap)
      ∧ (∀ mb, ModScaling.messy_best p_n pool mmap modulus = some mb →
          ¬ mb.gap < w.gap →
          ModScaling.get_v23_prediction p_n pool mmap modulus = some w.prime) := by
  have hdata_ne : ModScaling.candidates_data p_n pool mmap modulus ≠ [] := by
    intro hc
    exact hne (List.map_eq_nil_iff.mp hc)
  obtain ⟨w, hW⟩ : ∃ w, ModScaling.v11_winner p_n pool mmap modulus = some w :=
    firstMinBy_isSome _ _ hdata_ne
  refine ⟨w, hW, ?_, ?_⟩
  · intro hne'
    cases hM : ModScaling.messy_best p_n pool mmap modulus with
    | none =>
      exfalso
      exact hne' (by rw [get_v23_prediction_eq_cases, hW, hM])
    | some mb =>
      by_cases hg : mb.gap < w.gap
      · refine ⟨mb, rfl, ?_, hg⟩
        rw [get_v23_prediction_eq_cases, hW, hM]
        show (if mb.gap < w.gap then some mb.prime else some w.prime) = some mb.prime
        rw [if_pos hg]
      · exfalso
        apply hne'
        rw [get_v23_prediction_eq_cases, hW, hM]
        show (if mb.gap < w.gap then some mb.prime else some w.prime) = some w.prime
        rw [if_neg hg]
  · intro mb hM hg
    rw [get_v23_prediction_eq_cases, hW, hM]
    show (if mb.gap < w.gap then some mb.prime else some w.prime) = some w.prime
    rw [if_neg hg]

/-- Witness for C3 at the concrete scenario-1 input. -/
theorem c3_flip_characterisation_witness :
    ∃ w, ModScaling.v11_winner 3 [5, 7, 11, 13] RsaBreaker.MESSINESS_SCORES 6 = some w
      ∧ (ModScaling.get_v23_prediction 3 [5, 7, 11, 13] RsaBreaker.MESSINESS_SCORES 6
            ≠ some w.prime →
          ∃ mb, ModScaling.messy_best 3 [5, 7, 11, 13] RsaBreaker.MESSINESS_SCORES 6 = some mb
            ∧ ModScaling.get_v23_prediction 3 [5, 7, 11, 13] RsaBreaker.MESSINESS_SCORES 6
                = some mb.prime
            ∧ mb.gap < w.gap)
      ∧ (∀ mb, ModScaling.messy_best 3 [5, 7, 11, 13] RsaBreaker.MESSINESS_SCORES 6 = some mb →
          ¬ mb.gap < w.gap →
          ModScaling.get_v23_prediction 3 [5, 7, 11, 13] RsaBreaker.MESSINESS_SCORES 6
              = some w.prime) :=
  c3_flip_characterisation 3 [5, 7, 11, 13] RsaBreaker.MESSINESS_SCORES 6 (by decide)

/-- C4: for every `p_n`, every candidate strictly greater than `p_n` and
every messiness table with nonnegative scores, the candidate's score equals
`(messiness(p_n + candidate) + 1.0) * (candidate - p_n)` and is a
nonnegative value. -/
theorem c4_score_formula (p_n : Int) (pool : List Int)
    (mmap : List (Int × PyFloat)) (modulus : Int)
    (hgt : ∀ q ∈ pool, p_n < q)
    (hnn : ∀ kv ∈ mmap, (0 : PyFloat) ≤ kv.2) :
    ∀ d ∈ ModScaling.candidates_data p_n pool mmap modulus,
      d.messiness = ModScaling.get_messiness_score (p_n + d.prime) mmap modulus
      ∧ d.gap = d.prime - p_n
      ∧ d.score = (d.messiness + 1) * ((d.gap : ℚ) : PyFloat)
      ∧ (0 : PyFloat) ≤ d.score := by
  intro d hd
  obtain ⟨q, hq, hfq⟩ := List.mem_map.mp hd
  subst hfq
  have hgap : (0 : Int) < q - p_n := by
    have := hgt q hq
    omega
  have hcast : ((q - p_n : Int) : ℚ) ≠ 0 := by
    exact_mod_cast ne_of_gt hgap
  have hmess_nn : (0 : PyFloat) ≤ ModScaling.get_messiness_score (p_n + q) mmap modulus := by
    rcases mapGet_mem_or_default mmap ((p_n + q) % modulus) ((100 : ℚ) : PyFloat) with
      ⟨kv, hkv, heq⟩ | heq
    · rw [show ModScaling.get_messiness_score (p_n + q) mmap modulus
          = mapGet mmap ((p_n + q) % modulus) ((100 : ℚ) : PyFloat) from rfl, heq]
      exact hnn kv hkv
    · rw [show ModScaling.get_messiness_score (p_n + q) mmap modulus
          = mapGet mmap ((p_n + q) % modulus) ((100 : ℚ) : PyFloat) from rfl, heq]
      decide
  refine ⟨rfl, rfl, ?_, ?_⟩
  · show ModScaling.scoreV11 (ModScaling.get_messiness_score (p_n + q) mmap modulus) (q - p_n)
        = (ModScaling.get_messiness_score (p_n + q) mmap modulus + 1)
            * (((q - p_n : Int) : ℚ) : PyFloat)
    cases hm : ModScaling.get_messiness_score (p_n + q) mmap modulus with
    | none =>
      show (⊤ : PyFloat).map _ = ((⊤ : PyFloat) + 1) * (((q - p_n : Int) : ℚ) : PyFloat)
      rw [WithTop.map_top, WithTop.top_add, WithTop.top_mul (fun h0 => hcast (WithTop.coe_eq_zero.mp h0))]
    | some m =>
      show (WithTop.some m : PyFloat).map _
          = ((WithTop.some m : PyFloat) + 1) * (((q - p_n : Int) : ℚ) : PyFloat)
      rw [show (WithTop.some m : PyFloat) = ((m : ℚ) : PyFloat) from rfl]
      rw [WithTop.map_coe, ← WithTop.coe_one, ← WithTop.coe_add, ← WithTop.coe_mul]
  · show (0 : PyFloat) ≤ ModScaling.scoreV11
        (ModScaling.get_messiness_score (p_n + q) mmap modulus) (q - p_n)
    cases hm : ModScaling.get_messiness_score (p_n + q) mmap modulus with
    | none =>
      show (0 : PyFloat) ≤ (⊤ : PyFloat).map _
      rw [WithTop.map_top]
      exact le_top
    | some m =>
      have hm_nn : (0 : ℚ) ≤ m := by
        rw [hm] at hmess_nn
        have h' : ((0 : ℚ) : PyFloat) ≤ ((m : ℚ) : PyFloat) := hmess_nn
        exact WithTop.coe_le_coe.mp h'
      show (0 : PyFloat) ≤ (WithTop.some m : PyFloat).map fun x => (x + 1) * ((q - p_n : Int) : ℚ)
      rw [show (WithTop.some m : PyFloat) = ((m : ℚ) : PyFloat) from rfl, WithTop.map_coe,
        ← WithTop.coe_zero, WithTop.coe_le_coe]
      have hg_nn : (0 : ℚ) ≤ ((q - p_n : Int) : ℚ) := by exact_mod_cast le_of_lt hgap
      have h1 : (0 : ℚ) ≤ m + 1 := by linarith
      exact mul_nonneg h1 hg_nn

/-- Witness for C4 at the concrete candidate record for `p_n = 3`, `q = 5`. -/
theorem c4_score_formula_witness :
    (rsaCand 3 5).messiness
        = ModScaling.get_messiness_score (3 + (rsaCand 3 5).prime) RsaBreaker.MESSINESS_SCORES 6
    ∧ (rsaCand 3 5).gap = (rsaCand 3 5).prime - 3
    ∧ (rsaCand 3 5).score = ((rsaCand 3 5).messiness + 1) * (((rsaCand 3 5).gap : ℚ) : PyFloat)
    ∧ (0 : PyFloat) ≤ (rsaCand 3 5).score :=
  c4_score_formula 3 [5] RsaBreaker.MESSINESS_SCORES 6 (by decide) (by decide)
    (rsaCand 3 5) (by decide)

/-- C5 (amended): the RSA-breaker lookup returns the designated 100.0
fallback for every absent residue (without failing), the fallback strictly
exceeds every tabulated score and is nonzero, and the baseline winner is
never an absent-residue candidate provided some tabulated candidate's gap is
at most that of every absent-residue candidate.  (As literally stated the
last part is false: the fallback is the finite value 100.0, so an
absent-residue candidate with a sufficiently smaller gap can still win the
baseline — see the counterexample.) -/
theorem c5_lookup_miss_amended :
    (∀ anchor : Int, ¬ RsaBreaker.tabulated anchor →
        RsaBreaker.get_messiness_score anchor = ((100 : ℚ) : PyFloat))
    ∧ (∀ kv ∈ RsaBreaker.MESSINESS_SCORES, kv.2 < ((100 : ℚ) : PyFloat))
    ∧ (((100 : ℚ) : PyFloat) ≠ ((0 : ℚ) : PyFloat))
    ∧ (∀ (p_n : Int) (pool : List Int) (t wq : Int),
        (∀ q ∈ pool, p_n < q) →
        t ∈ pool → RsaBreaker.tabulated (p_n + t) →
        (∀ a ∈ pool, ¬ RsaBreaker.tabulated (p_n + a) → t ≤ a) →
        RsaBreaker.v11_winner_of p_n pool = some wq →
        RsaBreaker.tabulated (p_n + wq)) := by
  refine ⟨fun a h => rsa_mess_absent_eq a h, by decide, by decide, ?_⟩
  intro p pool t wq hgt ht htab hmin hw
  by_contra habs0
  have hwv : RsaBreaker.v11_winner_of p pool
      = optPrime (ModScaling.v11_winner p pool RsaBreaker.MESSINESS_SCORES 6) :=
    (rsa_state_spec p pool).2.1
  rw [hw] at hwv
  cases hW : ModScaling.v11_winner p pool RsaBreaker.MESSINESS_SCORES 6 with
  | none =>
    rw [hW] at hwv
    exact Option.noConfusion hwv
  | some w =>
    rw [hW] at hwv
    simp only [optPrime, Option.map_some'] at hwv
    obtain ⟨hwmem, hwmin⟩ := firstMinBy_spec (fun d : ModScaling.CandData => d.score) _ _ hW
    obtain ⟨qw, hqw_mem, hfq⟩ := List.mem_map.mp hwmem
    subst hfq
    have hwq : wq = qw := Option.some.inj hwv
    subst hwq
    have habs : ¬ RsaBreaker.tabulated (p + wq) := habs0
    -- the tabulated candidate's record is also in the data list
    have htd : rsaCand p t ∈ ModScaling.candidates_data p pool RsaBreaker.MESSINESS_SCORES 6 := by
      rw [show ModScaling.candidates_data p pool RsaBreaker.MESSINESS_SCORES 6
          = pool.map (rsaCand p) from rfl]
      exact List.mem_map_of_mem _ ht
    have hmin' : (rsaCand p wq).score ≤ (rsaCand p t).score := hwmin (rsaCand p t) htd
    -- winner's messiness is the fallback
    have hmess_w : (rsaCand p wq).messiness = ((100 : ℚ) : PyFloat) :=
      rsa_mess_absent_eq (p + wq) habs
    have hscore_w : (rsaCand p wq).score
        = ((((100 : ℚ) + 1) * ((wq - p : Int) : ℚ)) : PyFloat) := by
      show ModScaling.scoreV11 (rsaCand p wq).messiness (wq - p) = _
      rw [hmess_w]
      rfl
    -- the tabulated candidate's messiness is finite and bounded
    cases hmt : (rsaCand p t).messiness with
    | none => exact rsaCand_messiness_ne_top p t hmt
    | some mt =>
      have hmt_ub : (mt : ℚ) ≤ mkRat 262859 10000 := by
        have h := rsa_mess_tabulated_le (p + t) htab
        rw [show RsaBreaker.get_messiness_score (p + t) = (rsaCand p t).messiness from rfl,
          hmt] at h
        exact WithTop.coe_le_coe.mp h
      have hmt_nn : (0 : ℚ) ≤ mt := by
        have h := rsa_mess_nonneg (p + t)
        rw [show RsaBreaker.get_messiness_score (p + t) = (rsaCand p t).messiness from rfl,
          hmt] at h
        exact WithTop.coe_le_coe.mp h
      have hscore_t : (rsaCand p t).score
          = (((mt + 1) * ((t - p : Int) : ℚ)) : PyFloat) := by
        show ModScaling.scoreV11 (rsaCand p t).messiness (t - p) = _
        rw [hmt]
        rfl
      rw [hscore_w, hscore_t] at hmin'
      have hq1 : ((100 : ℚ) + 1) * ((wq - p : Int) : ℚ) ≤ (mt + 1) * ((t - p : Int) : ℚ) :=
        WithTop.coe_le_coe.mp hmin'
      have hgt_t : (0 : ℚ) < ((t - p : Int) : ℚ) := by
        have := hgt t ht
        exact_mod_cast (by omega : (0 : Int) < t - p)
      have hle_gap : ((t - p : Int) : ℚ) ≤ ((wq - p : Int) : ℚ) := by
        have := hmin wq hqw_mem habs
        exact_mod_cast (by omega : (t - p : Int) ≤ wq - p)
      have hub : (mkRat 262859 10000 : ℚ) = 262859 / 10000 := by
        rw [Rat.mkRat_eq_div]
        norm_num
      rw [hub] at hmt_ub
      nlinarith [hq1, hmt_ub, hmt_nn, hgt_t, hle_gap]

/-- Witness for C5 at the scenario-1 input, where every candidate is
tabulated and the baseline winner is 5. -/
theorem c5_lookup_miss_amended_witness : RsaBreaker.tabulated (3 + 5) :=
  c5_lookup_miss_amended.2.2.2 3 [5, 7, 11, 13] 5 5
    (by decide) (by decide) (by decide) (by decide) (by decide)

/-- C5 counterexample: with `p_n = 2` and pool `[3, 20]` the pool contains a
tabulated candidate (anchor 22, residue 4) yet the baseline (minimum-score)
winner is the absent-residue candidate 3 (anchor 5, residue 5): the finite
100.0 fallback does not disqualify a small-gap absent-residue candidate. -/
theorem c5_lookup_miss_counterexample :
    RsaBreaker.v11_winner_of 2 [3, 20] = some 3
    ∧ ¬ RsaBreaker.tabulated (2 + 3)
    ∧ RsaBreaker.tabulated (2 + 20) := by decide

/-- C6: concrete scenario 1 — modulus-6 table
`{0: 2.7126, 2: 26.2627, 4: 26.2859}`, threshold 20.0, `p_n = 3`, candidates
`[5, 7, 11, 13]` (anchors 8, 10, 14, 16 all messy): the predictor returns 5. -/
theorem c6_scenario_one :
    RsaBreaker.get_plr_prediction 3 [5, 7, 11, 13] = some 5
    ∧ ∀ q ∈ ([5, 7, 11, 13] : List Int),
        ((20 : ℚ) : PyFloat) < RsaBreaker.get_messiness_score (3 + q) := by
  decide

/-- C7 (amended): the mod-scaling universal engine instantiated with the
RSA-breaker's table and modulus 6 agrees with the RSA-breaker engine on
every `p_n` and candidate pool.  (The next-prime-generator engine does not
share this algorithm; see the counterexample.) -/
theorem c7_universal_rsa_agree (p_n : Int) (pool : List Int) :
    ModScaling.get_v23_prediction p_n pool RsaBreaker.MESSINESS_SCORES 6
      = RsaBreaker.get_plr_prediction p_n pool :=
  modscaling_eq_rsa p_n pool

/-- C7 counterexample: at `p_n = 406907` every prime in the gap window
2..210 has anchor residue 0 (clean), so the next-prime-generator's messy bin
is empty and its flip condition `g_messy_low < g_v16_winner` fires on the
`-1` initial marker, returning -1; the universal engine on the same
candidate pool (same table, modulus and threshold) returns the first
candidate 406951. -/
theorem c7_variant_counterexample :
    ModScaling.get_v23_prediction 406907
        ((NextPrimeGen.candidates 406907).map NextPrimeGen.NpgCand.p)
        NextPrimeGen.S_N_MESSINESS_MAP 6 = some 406951
    ∧ NextPrimeGen.get_v23_prediction 406907 = some (-1) := by
  decide

/-- C8 (amended): when the prime file holds fewer primes than the required
count (`limit + 50`), the loader detects it by comparing loaded-count to
required-count but reports only a warning; the run is not aborted, and the
per-prime test loop still executes on the reduced range
`min(len(all_primes) - 12, limit)`. -/
theorem c8_insufficient_data_warns (lines : List Int) (limit : Nat)
    (hne : lines ≠ []) (hshort : lines.length < limit + 50) :
    ModScaling.load_primes_warns lines limit = true
    ∧ ModScaling.run_scaling_test (some lines) limit
        = some (ModScaling.scalingLoopIterations lines limit) := by
  have htake : lines.take (limit + 50) = lines := List.take_of_length_le (le_of_lt hshort)
  constructor
  · simp only [ModScaling.load_primes_warns, htake, decide_eq_true_eq]
    exact hshort
  · show (match ModScaling.load_primes_from_file (some lines) limit with
      | none => none
      | some all_primes =>
        if all_primes.isEmpty then none
        else some (ModScaling.scalingLoopIterations all_primes limit)) = _
    rw [show ModScaling.load_primes_from_file (some lines) limit
        = some (lines.take (limit + 50)) from rfl, htake]
    show (if lines.isEmpty then none
        else some (ModScaling.scalingLoopIterations lines limit))
      = some (ModScaling.scalingLoopIterations lines limit)
    rw [if_neg (by simp [List.isEmpty_iff, hne])]

/-- Witness for C8: a 30-line prime file with `TEST_LIMIT = 200`. -/
theorem c8_insufficient_data_warns_witness :
    ModScaling.load_primes_warns ((List.range 30).map fun n => (n : Int)) 200 = true
    ∧ ModScaling.run_scaling_test (some ((List.range 30).map fun n => (n : Int))) 200
        = some (ModScaling.scalingLoopIterations
            ((List.range 30).map fun n => (n : Int)) 200) :=
  c8_insufficient_data_warns ((List.range 30).map fun n => (n : Int)) 200
    (by decide) (by decide)

/-- C8 counterexample: a 30-line prime file with `TEST_LIMIT = 100` is
insufficient (150 primes required), yet the script does not stop: the warning
fires and the per-prime loop still runs 18 iterations, so there is partial
execution rather than a fatal precondition failure. -/
theorem c8_partial_execution_counterexample :
    ModScaling.load_primes_warns ((List.range 30).map fun n => (n : Int)) 100 = true
    ∧ ModScaling.run_scaling_test (some ((List.range 30).map fun n => (n : Int))) 100
        = some 18
    ∧ ((List.range 30).map fun n => (n : Int)).length < 100 + 50 := by
  decide

/-- C9: loading a residue-table file whose object maps "0" to 1.45 and "2"
to the token `Infinity` yields a map sending residue 0 to 1.45 and residue 2
to the infinite "unknown" sentinel — not to 0 and not to a parse failure. -/
theorem c9_infinity_roundtrip :
    ModScaling.load_messiness_map
        [(0, ModScaling.JsonVal.num (mkRat 145 100)), (2, ModScaling.JsonVal.infinityLit)]
      = some [(0, ((mkRat 145 100 : ℚ) : PyFloat)), (2, (⊤ : PyFloat))]
    ∧ mapGet [(0, ((mkRat 145 100 : ℚ) : PyFloat)), (2, (⊤ : PyFloat))] 2 ((0 : ℚ) : PyFloat)
        = (⊤ : PyFloat)
    ∧ ((⊤ : PyFloat) ≠ ((0 : ℚ) : PyFloat)) := by
  decide

/-- C10: in the variant whose lookup-miss sentinel is `math.inf`, every
candidate with an absent anchor residue is placed in the messy bin
(infinity exceeds the threshold), and at a concrete input such a candidate
is returned as the final prediction via the flip even though the baseline
winner is a tabulated candidate. -/
theorem c10_inf_sentinel_flip :
    (∀ (mmap : List (Int × PyFloat)) (p_n : Int) (pool : List Int) (q : Int),
        q ∈ pool → (p_n + q) % 6 ∉ tableKeys mmap →
        ∃ d ∈ EffOpt.messy_bin mmap p_n pool, d.prime = q ∧ d.rate = ⊤)
    ∧ (EffOpt.get_v23_internal_flip_prediction [(0, ((1 : ℚ) : PyFloat))] 1 [3, 5] = some 3
      ∧ (firstMinBy (fun d => d.score)
            (EffOpt.candidates_data [(0, ((1 : ℚ) : PyFloat))] 1 [3, 5])).map
              EffOpt.EffData.prime = some 5
      ∧ (1 + 3) % 6 ∉ tableKeys [(0, ((1 : ℚ) : PyFloat))]
      ∧ (1 + 5) % 6 ∈ tableKeys [(0, ((1 : ℚ) : PyFloat))]) := by
  constructor
  · intro mmap p_n pool q hq habs
    have hrate : EffOpt.get_vmod6_score mmap (p_n + q) = ⊤ := mapGet_absent _ _ _ habs
    refine ⟨⟨EffOpt.get_messiness_score_v11_weighted mmap (p_n + q) (q - p_n), q,
      EffOpt.get_vmod6_score mmap (p_n + q), q - p_n⟩, ?_, rfl, hrate⟩
    apply List.mem_filter.mpr
    constructor
    · exact List.mem_map_of_mem _ hq
    · show decide (EffOpt.MESSY_THRESHOLD < EffOpt.get_vmod6_score mmap (p_n + q)) = true
      rw [hrate]
      decide
  · decide

/-- Witness for C10: the absent-residue candidate 3 lands in the messy bin at
the concrete input. -/
theorem c10_inf_sentinel_flip_witness :
    ∃ d ∈ EffOpt.messy_bin [(0, ((1 : ℚ) : PyFloat))] 1 [3, 5], d.prime = 3 ∧ d.rate = ⊤ :=
  c10_inf_sentinel_flip.1 [(0, ((1 : ℚ) : PyFloat))] 1 [3, 5] 3 (by decide) (by decide)

end PLR
